import Mathlib

/-!
Verification of the RegistryStore logic of the course-management service
(`src/main.py`): two in-memory collections (courses, participants) with
referential integrity maintained by cascading mutations.

The Python handlers mutate two module-level lists and signal failure by
raising `HTTPException` before any mutation happens.  We embed them as pure
functions on an explicit `RegistryState`, returning the result
(`Except HTTPError α`) together with the post-state; an error result is
always paired with the unchanged input state, mirroring raise-before-mutate.
Timestamps come from an external clock (`get_time`), so the two create
operations take the current timestamp string as an explicit argument.
-/

namespace CourseMgmt

/-- `Course` record of `main.py` (pydantic model): `id`, `name`,
`instructor`, and an optional `created_at` timestamp (null until set). -/
structure Course where
  id : Int
  name : String
  instructor : String
  created_at : Option String
deriving DecidableEq, Repr

/-- `Participant` record of `main.py`: `id`, `name`, the referenced
`course_id`, and an optional `created_at` timestamp. -/
structure Participant where
  id : Int
  name : String
  course_id : Int
  created_at : Option String
deriving DecidableEq, Repr

/-- An `HTTPException` as raised by the handlers: status code and detail. -/
structure HTTPError where
  status : Nat
  detail : String
deriving DecidableEq, Repr

/-- The two module-level collections `courses` and `participants`. -/
structure RegistryState where
  courses : List Course
  participants : List Participant
deriving DecidableEq, Repr

/-- `DuplicateId` rejection of `add_course` (status 400). -/
def courseIdExists : HTTPError := ⟨400, "Course ID already exists."⟩

/-- `DuplicateName` rejection of `add_course` (status 400). -/
def courseNameExists : HTTPError := ⟨400, "Course name already exists."⟩

/-- `NotFound` rejection of `update_course_info` (status 404). -/
def courseNotFoundUpdate : HTTPError :=
  ⟨404, "Course not found - there is nothing to update."⟩

/-- `NotFound` rejection of `delete_course` (status 404). -/
def courseNotFoundDelete : HTTPError := ⟨404, "Course not found — nothing to delete."⟩

/-- `NotFound` rejection of `get_participants` with a filter (status 404). -/
def courseNotFoundFilter : HTTPError := ⟨404, "Course not found."⟩

/-- `NotFound` rejection of `add_participant` (status 404). -/
def courseNotFoundForParticipant : HTTPError :=
  ⟨404, "Course not found. Create a course in order to create participants."⟩

/-- `DuplicateId` rejection of `add_participant` (status 400). -/
def participantIdExists : HTTPError := ⟨400, "Participant ID already exists."⟩

/-- `NotFound` rejection of `update_participant_info` (status 404). -/
def participantNotFound : HTTPError :=
  ⟨404, "Participant not found - there is nothing to update."⟩

/-- `GET /courses`: returns the course list; no failure mode. -/
def get_courses (s : RegistryState) :
    Except HTTPError (List Course) × RegistryState :=
  (.ok s.courses, s)

/-- `POST /courses` (`add_course`): reject on duplicate id, then on
duplicate name; otherwise stamp `created_at` with the clock value `now`,
append, and return the stored course. -/
def add_course (now : String) (course : Course) (s : RegistryState) :
    Except HTTPError Course × RegistryState :=
  if s.courses.any (fun c => c.id == course.id) then
    (.error courseIdExists, s)
  else if s.courses.any (fun c => c.name == course.name) then
    (.error courseNameExists, s)
  else
    let stored := { course with created_at := some now }
    (.ok stored, { s with courses := s.courses ++ [stored] })

/-- The `for … if … : mutate; …; return` loop shape shared by
`update_course_info` and `update_participant_info`: rewrite the first
element satisfying `m` with `f` and report it; later elements untouched. -/
def replace_first {α : Type} (m : α → Bool) (f : α → α) :
    List α → List α × Option α
  | [] => ([], none)
  | x :: xs =>
    if m x then (f x :: xs, some (f x))
    else
      let (ys, r) := replace_first m f xs
      (x :: ys, r)

/-- Field overwrite performed by `update_course_info` on the matched
course: `id`, `name`, `instructor` from the replacement, `created_at` kept. -/
def overwrite_course (c u : Course) : Course :=
  { c with id := u.id, name := u.name, instructor := u.instructor }

/-- `update_individual_course_id`: the rename-cascade loop — every
participant whose `course_id` equals `former_id` gets `updated_id`. -/
def update_individual_course_id (former_id updated_id : Int) :
    List Participant → List Participant
  | [] => []
  | p :: ps =>
    (if former_id == p.course_id then { p with course_id := updated_id } else p)
      :: update_individual_course_id former_id updated_id ps

/-- `PUT /courses/\x7bcourse_id\x7d` (`update_course_info`): 404 if no course has
the id; otherwise overwrite the first matching course's fields, run the
rename-cascade with the old and new ids, and return the replacement data.
The inner `none` branch is unreachable (the guard guarantees a match). -/
def update_course_info (course_id : Int) (updated_course : Course)
    (s : RegistryState) : Except HTTPError Course × RegistryState :=
  if s.courses.any (fun c => c.id == course_id) then
    match replace_first (fun c => c.id == course_id)
        (fun c => overwrite_course c updated_course) s.courses with
    | (cs, some _) =>
      (.ok updated_course,
        { courses := cs,
          participants :=
            update_individual_course_id course_id updated_course.id
              s.participants })
    | (_, none) => (.error courseNotFoundUpdate, s)
  else (.error courseNotFoundUpdate, s)

/-- `delete_participants_by_course`: builds the `temp_list` of participants
whose `course_id` differs from the deleted id, in order. -/
def delete_participants_by_course (course_id : Int) :
    List Participant → List Participant
  | [] => []
  | p :: ps =>
    if p.course_id != course_id then
      p :: delete_participants_by_course course_id ps
    else delete_participants_by_course course_id ps

/-- `DELETE /courses/\x7bcourse_id\x7d` (`delete_course`): find the first course
with the id (`next(…)`); 404 if none; otherwise `courses.remove` it and
replace the participant list with the cascade-filtered one
(`clear` + `extend`). -/
def delete_course (course_id : Int) (s : RegistryState) :
    Except HTTPError Unit × RegistryState :=
  match s.courses.find? (fun c => c.id == course_id) with
  | none => (.error courseNotFoundDelete, s)
  | some course_to_delete =>
    (.ok (),
      { courses := s.courses.erase course_to_delete,
        participants :=
          delete_participants_by_course course_id s.participants })

/-- `GET /participants` (`get_participants`): with a `course_id` filter,
404 if no course has that id, else the ordered sublist of matching
participants; without a filter, the full participant list. -/
def get_participants (course_id : Option Int) (s : RegistryState) :
    Except HTTPError (List Participant) × RegistryState :=
  match course_id with
  | some cid =>
    if s.courses.any (fun c => c.id == cid) then
      (.ok (s.participants.filter (fun p => p.course_id == cid)), s)
    else (.error courseNotFoundFilter, s)
  | none => (.ok s.participants, s)

/-- `POST /participants` (`add_participant`): 404 if the referenced course
does not exist, 400 on duplicate participant id, else stamp `created_at`,
append, and return the stored participant. -/
def add_participant (now : String) (participant : Participant)
    (s : RegistryState) : Except HTTPError Participant × RegistryState :=
  if !(s.courses.any (fun c => c.id == participant.course_id)) then
    (.error courseNotFoundForParticipant, s)
  else if s.participants.any (fun p => p.id == participant.id) then
    (.error participantIdExists, s)
  else
    let stored := { participant with created_at := some now }
    (.ok stored, { s with participants := s.participants ++ [stored] })

/-- Field overwrite performed by `update_participant_info` on the matched
participant: `id`, `name`, `course_id` from the replacement, `created_at`
kept. -/
def overwrite_participant (p u : Participant) : Participant :=
  { p with id := u.id, name := u.name, course_id := u.course_id }

/-- `PUT /participants/\x7bparticipant_id\x7d` (`update_participant_info`): 404 if
no participant has the id; otherwise overwrite the first matching
participant's fields and return the stored, mutated record.  The inner
`none` branch is unreachable (the guard guarantees a match). -/
def update_participant_info (participant_id : Int)
    (updated_participant : Participant) (s : RegistryState) :
    Except HTTPError Participant × RegistryState :=
  if s.participants.any (fun p => p.id == participant_id) then
    match replace_first (fun p => p.id == participant_id)
        (fun p => overwrite_participant p updated_participant)
        s.participants with
    | (ps, some stored) => (.ok stored, { s with participants := ps })
    | (_, none) => (.error participantNotFound, s)
  else (.error participantNotFound, s)

/-- Uniqueness invariant of the course collection: any two distinct stored
courses have distinct ids and distinct names (§3 of the spec). -/
def coursesDistinct (s : RegistryState) : Prop :=
  s.courses.Pairwise (fun c1 c2 => c1.id ≠ c2.id ∧ c1.name ≠ c2.name)

/-- The `created_at` fields of the course collection, in order. -/
def courseStamps (s : RegistryState) : List (Option String) :=
  s.courses.map Course.created_at

/-- The `created_at` fields of the participant collection, in order. -/
def participantStamps (s : RegistryState) : List (Option String) :=
  s.participants.map Participant.created_at

/-! ### Concrete sample data used to instantiate the theorems -/

def cAlgo : Course := ⟨1, "Algo", "Ada", some "t1"⟩

def cData : Course := ⟨2, "Data", "Bob", some "t2"⟩

def pEve : Participant := ⟨10, "Eve", 1, some "t3"⟩

def pMax : Participant := ⟨11, "Max", 2, some "t4"⟩

def sampleState : RegistryState := ⟨[cAlgo, cData], [pEve, pMax]⟩

/-! ### Helper lemmas about the loop shapes -/

theorem replace_first_of_none {α : Type} (m : α → Bool) (f : α → α)
    (l : List α) (h : ∀ x ∈ l, m x = false) : replace_first m f l = (l, none) := by
  induction l with
  | nil => rfl
  | cons x xs ih =>
    have hx : m x = false := h x (List.mem_cons_self x xs)
    simp [replace_first, hx, ih (fun y hy => h y (List.mem_cons_of_mem x hy))]

theorem replace_first_append {α : Type} (m : α → Bool) (f : α → α)
    (l1 : List α) (x : α) (l2 : List α)
    (h1 : ∀ y ∈ l1, m y = false) (hx : m x = true) :
    replace_first m f (l1 ++ x :: l2) = (l1 ++ f x :: l2, some (f x)) := by
  induction l1 with
  | nil => simp [replace_first, hx]
  | cons a l1 ih =>
    have ha : m a = false := h1 a (List.mem_cons_self a l1)
    simp [replace_first, ha,
      ih (fun y hy => h1 y (List.mem_cons_of_mem a hy))]

theorem exists_first_split {α : Type} (m : α → Bool) (l : List α)
    (h : ∃ x ∈ l, m x = true) :
    ∃ l1 x l2, l = l1 ++ x :: l2 ∧ (∀ y ∈ l1, m y = false) ∧ m x = true := by
  induction l with
  | nil => simp at h
  | cons a l ih =>
    by_cases ha : m a = true
    · exact ⟨[], a, l, by simp, by simp, ha⟩
    · have h' : ∃ x ∈ l, m x = true := by
        rcases h with ⟨x, hx, hmx⟩
        rcases List.mem_cons.mp hx with rfl | hx'
        · exact absurd hmx ha
        · exact ⟨x, hx', hmx⟩
      rcases ih h' with ⟨l1, x, l2, rfl, hpre, hmx⟩
      exact ⟨a :: l1, x, l2, rfl,
        fun y hy => by
          rcases List.mem_cons.mp hy with rfl | hy'
          · exact Bool.eq_false_iff.mpr ha
          · exact hpre y hy', hmx⟩

theorem find?_first_split {α : Type} (m : α → Bool)
    (l1 : List α) (x : α) (l2 : List α)
    (h1 : ∀ y ∈ l1, m y = false) (hx : m x = true) :
    (l1 ++ x :: l2).find? m = some x := by
  induction l1 with
  | nil => simp [List.find?_cons, hx]
  | cons a l1 ih =>
    have ha : m a = false := h1 a (List.mem_cons_self a l1)
    simp [List.find?_cons, ha,
      ih (fun y hy => h1 y (List.mem_cons_of_mem a hy))]

theorem erase_append_of_not_mem_left {α : Type} [DecidableEq α]
    (l1 : List α) (x : α) (l2 : List α) (h : ∀ y ∈ l1, y ≠ x) :
    (l1 ++ x :: l2).erase x = l1 ++ l2 := by
  induction l1 with
  | nil => simp
  | cons a l1 ih =>
    have ha : a ≠ x := h a (List.mem_cons_self a l1)
    have : ((a :: l1) ++ x :: l2) = a :: (l1 ++ x :: l2) := rfl
    rw [this, List.erase_cons_tail (by simp [ha]),
      ih (fun y hy => h y (List.mem_cons_of_mem a hy))]
    rfl

theorem update_individual_course_id_eq_map (a b : Int) (ps : List Participant) :
    update_individual_course_id a b ps =
      ps.map (fun p => if p.course_id = a then { p with course_id := b } else p) := by
  induction ps with
  | nil => rfl
  | cons p ps ih =>
    by_cases h : p.course_id = a
    · simp [update_individual_course_id, h, ih]
    · have hb : (a == p.course_id) = false :=
        beq_eq_false_iff_ne.mpr (fun hh => h hh.symm)
      simp [update_individual_course_id, hb, h, ih]

theorem delete_participants_by_course_eq_filter (cid : Int) (ps : List Participant) :
    delete_participants_by_course cid ps =
      ps.filter (fun p => p.course_id != cid) := by
  induction ps with
  | nil => rfl
  | cons p ps ih =>
    by_cases h : p.course_id = cid <;>
      simp [delete_participants_by_course, List.filter_cons, h, ih]

theorem update_course_info_split (s : RegistryState) (A : Int) (repl : Course)
    (l1 : List Course) (c : Course) (l2 : List Course)
    (hsplit : s.courses = l1 ++ c :: l2) (hpre : ∀ y ∈ l1, y.id ≠ A)
    (hc : c.id = A) :
    update_course_info A repl s =
      (.ok repl,
        { courses := l1 ++ overwrite_course c repl :: l2,
          participants :=
            update_individual_course_id A repl.id s.participants }) := by
  have hany : ((l1 ++ c :: l2).any fun x => x.id == A) = true :=
    List.any_eq_true.mpr ⟨c, by simp, by simp [hc]⟩
  have hrep := replace_first_append (fun x => x.id == A)
    (fun x => overwrite_course x repl) l1 c l2
    (fun y hy => by simp [hpre y hy]) (by simp [hc])
  unfold update_course_info
  rw [hsplit, hany, hrep]
  rfl

theorem update_participant_info_split (s : RegistryState) (P : Int)
    (repl : Participant) (l1 : List Participant) (p : Participant)
    (l2 : List Participant) (hsplit : s.participants = l1 ++ p :: l2)
    (hpre : ∀ y ∈ l1, y.id ≠ P) (hp : p.id = P) :
    update_participant_info P repl s =
      (.ok (overwrite_participant p repl),
        { s with participants := l1 ++ overwrite_participant p repl :: l2 }) := by
  have hany : ((l1 ++ p :: l2).any fun x => x.id == P) = true :=
    List.any_eq_true.mpr ⟨p, by simp, by simp [hp]⟩
  have hrep := replace_first_append (fun x => x.id == P)
    (fun x => overwrite_participant x repl) l1 p l2
    (fun y hy => by simp [hpre y hy]) (by simp [hp])
  unfold update_participant_info
  rw [hsplit, hany, hrep]
  rfl

theorem map_created_at_update_individual (a b : Int) (ps : List Participant) :
    (update_individual_course_id a b ps).map Participant.created_at =
      ps.map Participant.created_at := by
  rw [update_individual_course_id_eq_map, List.map_map]
  exact List.map_congr_left
    (fun p _ => by by_cases h : p.course_id = a <;> simp [h])

/-! ### Claim theorems -/

/-- C1: `delete_course(course_id)` rejects with `NotFound` and changes
nothing when no course has the id; otherwise it removes the (first) course
with that id from the course collection and removes exactly the
participants whose `course_id` equals the deleted course's id, leaving
every other participant present, unchanged, and in the original relative
order (the filtered sublist). -/
theorem delete_course_spec (s : RegistryState) (cid : Int) :
    ((∀ c ∈ s.courses, c.id ≠ cid) →
      delete_course cid s = (.error courseNotFoundDelete, s)) ∧
    (∀ l1 c l2, s.courses = l1 ++ c :: l2 → (∀ y ∈ l1, y.id ≠ cid) → c.id = cid →
      delete_course cid s =
        (.ok (), { courses := l1 ++ l2,
                   participants :=
                     s.participants.filter (fun p => p.course_id != cid) })) := by
  constructor
  · intro h
    have hfind : s.courses.find? (fun c => c.id == cid) = none :=
      List.find?_eq_none.mpr (fun a ha => by simp [h a ha])
    simp [delete_course, hfind]
  · intro l1 c l2 hsplit hpre hc
    have hfind : s.courses.find? (fun c => c.id == cid) = some c := by
      rw [hsplit]
      exact find?_first_split _ l1 c l2 (fun y hy => by simp [hpre y hy])
        (by simp [hc])
    have herase : s.courses.erase c = l1 ++ l2 := by
      rw [hsplit]
      exact erase_append_of_not_mem_left l1 c l2
        (fun y hy hyc => hpre y hy (by rw [hyc, hc]))
    simp [delete_course, hfind, herase, delete_participants_by_course_eq_filter]

/-- Witness for C1: on the sample store, deleting course 1 removes it and
exactly its participant; deleting the absent id 3 rejects with the 404
error and leaves the state unchanged. -/
theorem delete_course_spec_witness :
    delete_course 3 sampleState = (.error courseNotFoundDelete, sampleState) ∧
    delete_course 1 sampleState =
      (.ok (), { courses := [cData], participants := [pMax] }) := by
  constructor
  · exact (delete_course_spec sampleState 3).1 (by decide)
  · have h := (delete_course_spec sampleState 1).2 [] cAlgo [cData]
      rfl (by simp) rfl
    rw [h]
    rfl

/-- C2: for a store containing a course with id `A` (split as the first
such course `c`), `update_course_info A repl` overwrites that course's
`id`, `name`, `instructor` with the replacement's values (keeping its
`created_at`), retargets every participant whose `course_id` was `A` to
`repl.id`, leaves every other participant's record unchanged, and returns
the replacement; the resulting state equality shows the cascade is complete
when the call returns. -/
theorem update_course_spec (s : RegistryState) (A : Int) (repl : Course)
    (l1 : List Course) (c : Course) (l2 : List Course)
    (hsplit : s.courses = l1 ++ c :: l2) (hpre : ∀ y ∈ l1, y.id ≠ A)
    (hc : c.id = A) :
    update_course_info A repl s =
      (.ok repl,
        { courses := l1 ++
            { c with id := repl.id, name := repl.name,
                     instructor := repl.instructor } :: l2,
          participants := s.participants.map
            (fun p => if p.course_id = A then { p with course_id := repl.id }
                      else p) }) := by
  have hany : ((l1 ++ c :: l2).any fun x => x.id == A) = true :=
    List.any_eq_true.mpr ⟨c, by simp, by simp [hc]⟩
  have hrep := replace_first_append (fun x => x.id == A)
    (fun x => overwrite_course x repl) l1 c l2
    (fun y hy => by simp [hpre y hy]) (by simp [hc])
  unfold update_course_info
  rw [hsplit, hany, hrep]
  simp [overwrite_course, update_individual_course_id_eq_map]

/-- Witness for C2: renaming course 1 to id 5 on the sample store rewrites
the course record and retargets participant 10 from course 1 to course 5,
leaving participant 11 untouched. -/
theorem update_course_spec_witness :
    update_course_info 1 ⟨5, "Algo2", "Grace", none⟩ sampleState =
      (.ok ⟨5, "Algo2", "Grace", none⟩,
        { courses := [⟨5, "Algo2", "Grace", some "t1"⟩, cData],
          participants := [⟨10, "Eve", 5, some "t3"⟩, pMax] }) := by
  have h := update_course_spec sampleState 1 ⟨5, "Algo2", "Grace", none⟩
    [] cAlgo [cData] rfl (by simp) rfl
  rw [h]
  rfl

/-- C3 counterexample: starting from the empty store, two successful
creates followed by `update_course_info` on course 2 with replacement id 1
and name "Algo" yield a reachable state whose two distinct courses share
both the id 1 and the name "Algo" — the code performs no duplicate check on
update, so the claimed store invariant fails. -/
theorem update_course_breaks_distinctness :
    add_course "t1" ⟨1, "Algo", "Ada", none⟩ ⟨[], []⟩ =
      (.ok ⟨1, "Algo", "Ada", some "t1"⟩,
        ⟨[⟨1, "Algo", "Ada", some "t1"⟩], []⟩) ∧
    add_course "t2" ⟨2, "Data", "Bob", none⟩
        ⟨[⟨1, "Algo", "Ada", some "t1"⟩], []⟩ =
      (.ok ⟨2, "Data", "Bob", some "t2"⟩,
        ⟨[⟨1, "Algo", "Ada", some "t1"⟩, ⟨2, "Data", "Bob", some "t2"⟩], []⟩) ∧
    update_course_info 2 ⟨1, "Algo", "Grace", none⟩
        ⟨[⟨1, "Algo", "Ada", some "t1"⟩, ⟨2, "Data", "Bob", some "t2"⟩], []⟩ =
      (.ok ⟨1, "Algo", "Grace", none⟩,
        ⟨[⟨1, "Algo", "Ada", some "t1"⟩, ⟨1, "Algo", "Grace", some "t2"⟩], []⟩) ∧
    ¬ coursesDistinct
        ⟨[⟨1, "Algo", "Ada", some "t1"⟩, ⟨1, "Algo", "Grace", some "t2"⟩], []⟩ := by
  refine ⟨rfl, rfl, rfl, ?_⟩
  simp [coursesDistinct]

/-- C3 (amended): two successfully created courses always have distinct
ids and names — `add_course` preserves the distinctness invariant, as do
`delete_course`, `get_participants`, `add_participant`,
`update_participant_info` and `get_courses`; `update_course_info` is the
sole exception (see the counterexample). -/
theorem coursesDistinct_preserved (s : RegistryState) (h : coursesDistinct s) :
    (∀ now c, coursesDistinct (add_course now c s).2) ∧
    (∀ cid, coursesDistinct (delete_course cid s).2) ∧
    (∀ cid, coursesDistinct (get_participants cid s).2) ∧
    (∀ now p, coursesDistinct (add_participant now p s).2) ∧
    (∀ pid p, coursesDistinct (update_participant_info pid p s).2) ∧
    coursesDistinct (get_courses s).2 := by
  refine ⟨?_, ?_, ?_, ?_, ?_, h⟩
  · intro now c
    by_cases h1 : (s.courses.any fun x => x.id == c.id) = true
    · simpa [add_course, h1] using h
    · by_cases h2 : (s.courses.any fun x => x.name == c.name) = true
      · simpa [add_course, Bool.eq_false_iff.mpr h1, h2] using h
      · have hid : ∀ x ∈ s.courses, x.id ≠ c.id := by
          intro x hx heq
          exact h1 (List.any_eq_true.mpr ⟨x, hx, by simp [heq]⟩)
        have hname : ∀ x ∈ s.courses, x.name ≠ c.name := by
          intro x hx heq
          exact h2 (List.any_eq_true.mpr ⟨x, hx, by simp [heq]⟩)
        have hgoal : coursesDistinct
            { s with courses := s.courses ++ [{ c with created_at := some now }] } := by
          refine List.pairwise_append.mpr ⟨h, by simp, ?_⟩
          intro a ha b hb
          have hb' : b = { c with created_at := some now } := by simpa using hb
          subst hb'
          exact ⟨hid a ha, hname a ha⟩
        simpa [add_course, Bool.eq_false_iff.mpr h1, Bool.eq_false_iff.mpr h2]
          using hgoal
  · intro cid
    cases hfind : s.courses.find? (fun c => c.id == cid) with
    | none => simpa [delete_course, hfind] using h
    | some c =>
      have hgoal : coursesDistinct
          { courses := s.courses.erase c,
            participants := delete_participants_by_course cid s.participants } :=
        h.sublist (List.erase_sublist c s.courses)
      simpa [delete_course, hfind] using hgoal
  · intro cid
    cases cid with
    | none => simpa [get_participants] using h
    | some c =>
      by_cases hg : (s.courses.any fun x => x.id == c) = true
      · simpa [get_participants, hg] using h
      · simpa [get_participants, Bool.eq_false_iff.mpr hg] using h
  · intro now p
    by_cases h1 : (s.courses.any fun x => x.id == p.course_id) = true
    · by_cases h2 : (s.participants.any fun x => x.id == p.id) = true
      · simpa [add_participant, h1, h2] using h
      · simpa [add_participant, h1, Bool.eq_false_iff.mpr h2] using h
    · simpa [add_participant, Bool.eq_false_iff.mpr h1] using h
  · intro pid p
    by_cases hg : (s.participants.any fun x => x.id == pid) = true
    · rcases hrep : replace_first (fun x => x.id == pid)
        (fun x => overwrite_participant x p) s.participants with ⟨ps, _ | r⟩
      · simpa [update_participant_info, hg, hrep] using h
      · simpa [update_participant_info, hg, hrep] using h
    · simpa [update_participant_info, Bool.eq_false_iff.mpr hg] using h

/-- Witness for the amended C3: the sample store satisfies the invariant
and a fresh create, a delete, and a participant update all preserve it. -/
theorem coursesDistinct_preserved_witness :
    coursesDistinct (add_course "t5" ⟨3, "ML", "Joy", none⟩ sampleState).2 ∧
    coursesDistinct (delete_course 1 sampleState).2 ∧
    coursesDistinct (update_participant_info 10 ⟨11, "Eve", 2, none⟩ sampleState).2 := by
  have hs : coursesDistinct sampleState := by
    unfold coursesDistinct
    decide
  exact ⟨(coursesDistinct_preserved sampleState hs).1 "t5" ⟨3, "ML", "Joy", none⟩,
    (coursesDistinct_preserved sampleState hs).2.1 1,
    (coursesDistinct_preserved sampleState hs).2.2.2.2.1 10 ⟨11, "Eve", 2, none⟩⟩

/-- C4: `add_course` rejects with the `DuplicateId` error when any stored
course shares the candidate's id — regardless of name collisions, so the
id check wins when both violations hold; with no id collision it rejects
with the `DuplicateName` error on an exact name match; otherwise it stamps
`created_at := now`, appends at the end, and returns the stored course. -/
theorem add_course_spec (now : String) (course : Course) (s : RegistryState) :
    ((∃ c ∈ s.courses, c.id = course.id) →
      add_course now course s = (.error courseIdExists, s)) ∧
    ((∀ c ∈ s.courses, c.id ≠ course.id) →
      (∃ c ∈ s.courses, c.name = course.name) →
      add_course now course s = (.error courseNameExists, s)) ∧
    ((∀ c ∈ s.courses, c.id ≠ course.id ∧ c.name ≠ course.name) →
      add_course now course s =
        (.ok { course with created_at := some now },
          { s with courses :=
              s.courses ++ [{ course with created_at := some now }] })) := by
  refine ⟨?_, ?_, ?_⟩
  · rintro ⟨c, hc, hid⟩
    have h1 : (s.courses.any fun x => x.id == course.id) = true :=
      List.any_eq_true.mpr ⟨c, hc, by simp [hid]⟩
    simp [add_course, h1]
  · rintro hid ⟨c, hc, hname⟩
    have h1 : (s.courses.any fun x => x.id == course.id) = false := by
      simpa using hid
    have h2 : (s.courses.any fun x => x.name == course.name) = true :=
      List.any_eq_true.mpr ⟨c, hc, by simp [hname]⟩
    simp [add_course, h1, h2]
  · intro hall
    have h1 : (s.courses.any fun x => x.id == course.id) = false := by
      simpa using fun x hx => (hall x hx).1
    have h2 : (s.courses.any fun x => x.name == course.name) = false := by
      simpa using fun x hx => (hall x hx).2
    simp [add_course, h1, h2]

/-- Witness for C4: on the sample store, id 1 is rejected as a duplicate
id (also when the name collides), name "Algo" as a duplicate name, and a
fresh course is stamped and appended. -/
theorem add_course_spec_witness :
    add_course "t9" ⟨1, "Algo", "Zoe", none⟩ sampleState =
      (.error courseIdExists, sampleState) ∧
    add_course "t9" ⟨9, "Algo", "Zoe", none⟩ sampleState =
      (.error courseNameExists, sampleState) ∧
    add_course "t9" ⟨9, "New", "Zoe", none⟩ sampleState =
      (.ok ⟨9, "New", "Zoe", some "t9"⟩,
        ⟨[cAlgo, cData, ⟨9, "New", "Zoe", some "t9"⟩], [pEve, pMax]⟩) := by
  refine ⟨?_, ?_, ?_⟩
  · exact (add_course_spec "t9" ⟨1, "Algo", "Zoe", none⟩ sampleState).1
      ⟨cAlgo, by simp [sampleState], rfl⟩
  · exact (add_course_spec "t9" ⟨9, "Algo", "Zoe", none⟩ sampleState).2.1
      (by decide) ⟨cAlgo, by simp [sampleState], rfl⟩
  · have h := (add_course_spec "t9" ⟨9, "New", "Zoe", none⟩ sampleState).2.2
      (by decide)
    rw [h]
    rfl

/-- C5: `add_participant` rejects with the course `NotFound` error when no
course has the candidate's `course_id` — this check runs first, so it wins
over a simultaneous id collision; with the course present it rejects with
the `DuplicateId` error when a stored participant shares the candidate's
id; otherwise it stamps `created_at := now`, appends, and returns the
stored participant.  Every rejection returns the unchanged state. -/
theorem add_participant_spec (now : String) (q : Participant) (s : RegistryState) :
    ((∀ c ∈ s.courses, c.id ≠ q.course_id) →
      add_participant now q s = (.error courseNotFoundForParticipant, s)) ∧
    ((∃ c ∈ s.courses, c.id = q.course_id) →
      (∃ p ∈ s.participants, p.id = q.id) →
      add_participant now q s = (.error participantIdExists, s)) ∧
    ((∃ c ∈ s.courses, c.id = q.course_id) →
      (∀ p ∈ s.participants, p.id ≠ q.id) →
      add_participant now q s =
        (.ok { q with created_at := some now },
          { s with participants :=
              s.participants ++ [{ q with created_at := some now }] })) := by
  refine ⟨?_, ?_, ?_⟩
  · intro h
    have h1 : (s.courses.any fun c => c.id == q.course_id) = false := by
      simpa using h
    simp [add_participant, h1]
  · rintro ⟨c, hc, hcid⟩ ⟨p, hp, hpid⟩
    have h1 : (s.courses.any fun c => c.id == q.course_id) = true :=
      List.any_eq_true.mpr ⟨c, hc, by simp [hcid]⟩
    have h2 : (s.participants.any fun x => x.id == q.id) = true :=
      List.any_eq_true.mpr ⟨p, hp, by simp [hpid]⟩
    simp [add_participant, h1, h2]
  · rintro ⟨c, hc, hcid⟩ hall
    have h1 : (s.courses.any fun c => c.id == q.course_id) = true :=
      List.any_eq_true.mpr ⟨c, hc, by simp [hcid]⟩
    have h2 : (s.participants.any fun x => x.id == q.id) = false := by
      simpa using hall
    simp [add_participant, h1, h2]

/-- Witness for C5: a participant referencing the absent course 7 is
rejected with the course `NotFound` error even though its id 10 also
collides; id 10 on course 1 is rejected as a duplicate id; a fresh
participant is stamped and appended. -/
theorem add_participant_spec_witness :
    add_participant "t9" ⟨10, "Sue", 7, none⟩ sampleState =
      (.error courseNotFoundForParticipant, sampleState) ∧
    add_participant "t9" ⟨10, "Sue", 1, none⟩ sampleState =
      (.error participantIdExists, sampleState) ∧
    add_participant "t9" ⟨12, "Sue", 1, none⟩ sampleState =
      (.ok ⟨12, "Sue", 1, some "t9"⟩,
        ⟨[cAlgo, cData], [pEve, pMax, ⟨12, "Sue", 1, some "t9"⟩]⟩) := by
  refine ⟨?_, ?_, ?_⟩
  · exact (add_participant_spec "t9" ⟨10, "Sue", 7, none⟩ sampleState).1 (by decide)
  · exact (add_participant_spec "t9" ⟨10, "Sue", 1, none⟩ sampleState).2.1
      ⟨cAlgo, by simp [sampleState], rfl⟩ ⟨pEve, by simp [sampleState], rfl⟩
  · have h := (add_participant_spec "t9" ⟨12, "Sue", 1, none⟩ sampleState).2.2
      ⟨cAlgo, by simp [sampleState], rfl⟩ (by decide)
    rw [h]
    rfl

/-- C6: `get_participants` with a `course_id` filter rejects with the 404
`NotFound` error whenever no course has that id (so in particular after
that course was deleted it does not return an empty list), and with the
course present returns the ordered sublist of matching participants; with
no filter it returns all participants and never fails. -/
theorem get_participants_spec (s : RegistryState) (cid : Int) :
    ((∀ c ∈ s.courses, c.id ≠ cid) →
      get_participants (some cid) s = (.error courseNotFoundFilter, s)) ∧
    ((∃ c ∈ s.courses, c.id = cid) →
      get_participants (some cid) s =
        (.ok (s.participants.filter (fun p => p.course_id == cid)), s)) ∧
    get_participants none s = (.ok s.participants, s) := by
  refine ⟨?_, ?_, rfl⟩
  · intro h
    have h1 : (s.courses.any fun c => c.id == cid) = false := by simpa using h
    simp [get_participants, h1]
  · rintro ⟨c, hc, hcid⟩
    have h1 : (s.courses.any fun c => c.id == cid) = true :=
      List.any_eq_true.mpr ⟨c, hc, by simp [hcid]⟩
    simp [get_participants, h1]

/-- Witness for C6 (including the deleted-course regression): after
deleting course 1, listing its participants rejects with the 404 error
rather than returning `[]`; filtering by course 2 returns exactly `pMax`;
the unfiltered listing returns everything. -/
theorem get_participants_spec_witness :
    get_participants (some 1) (delete_course 1 sampleState).2 =
      (.error courseNotFoundFilter, (delete_course 1 sampleState).2) ∧
    get_participants (some 2) sampleState = (.ok [pMax], sampleState) ∧
    get_participants none sampleState = (.ok [pEve, pMax], sampleState) := by
  refine ⟨?_, ?_, ?_⟩
  · exact (get_participants_spec (delete_course 1 sampleState).2 1).1 (by decide)
  · have h := (get_participants_spec sampleState 2).2.1
      ⟨cData, by simp [sampleState], rfl⟩
    rw [h]
    rfl
  · exact (get_participants_spec sampleState 0).2.2

/-- C7: whenever any of the six store operations rejects with an error,
the post-state (both collections) is exactly the pre-state — the handlers
raise before mutating, so no partial state change is observable. -/
theorem ops_unchanged_on_error (s : RegistryState) :
    (∀ now c e, (add_course now c s).1 = .error e → (add_course now c s).2 = s) ∧
    (∀ cid u e, (update_course_info cid u s).1 = .error e →
      (update_course_info cid u s).2 = s) ∧
    (∀ cid e, (delete_course cid s).1 = .error e → (delete_course cid s).2 = s) ∧
    (∀ now q e, (add_participant now q s).1 = .error e →
      (add_participant now q s).2 = s) ∧
    (∀ pid u e, (update_participant_info pid u s).1 = .error e →
      (update_participant_info pid u s).2 = s) ∧
    (∀ cid e, (get_participants cid s).1 = .error e →
      (get_participants cid s).2 = s) := by
  refine ⟨?_, ?_, ?_, ?_, ?_, ?_⟩
  · intro now c e h
    by_cases h1 : (s.courses.any fun x => x.id == c.id) = true
    · simp [add_course, h1]
    · by_cases h2 : (s.courses.any fun x => x.name == c.name) = true
      · simp [add_course, Bool.eq_false_iff.mpr h1, h2]
      · simp [add_course, Bool.eq_false_iff.mpr h1, Bool.eq_false_iff.mpr h2] at h
  · intro cid u e h
    by_cases hg : (s.courses.any fun x => x.id == cid) = true
    · rcases hrep : replace_first (fun x => x.id == cid)
        (fun x => overwrite_course x u) s.courses with ⟨cs, _ | r⟩
      · simp [update_course_info, hg, hrep]
      · simp [update_course_info, hg, hrep] at h
    · simp [update_course_info, Bool.eq_false_iff.mpr hg]
  · intro cid e h
    cases hfind : s.courses.find? (fun x => x.id == cid) with
    | none => simp [delete_course, hfind]
    | some c => simp [delete_course, hfind] at h
  · intro now q e h
    by_cases h1 : (s.courses.any fun x => x.id == q.course_id) = true
    · by_cases h2 : (s.participants.any fun x => x.id == q.id) = true
      · simp [add_participant, h1, h2]
      · simp [add_participant, h1, Bool.eq_false_iff.mpr h2] at h
    · simp [add_participant, Bool.eq_false_iff.mpr h1]
  · intro pid u e h
    by_cases hg : (s.participants.any fun x => x.id == pid) = true
    · rcases hrep : replace_first (fun x => x.id == pid)
        (fun x => overwrite_participant x u) s.participants with ⟨ps, _ | r⟩
      · simp [update_participant_info, hg, hrep]
      · simp [update_participant_info, hg, hrep] at h
    · simp [update_participant_info, Bool.eq_false_iff.mpr hg]
  · intro cid e h
    cases cid with
    | none => simp [get_participants] at h
    | some c =>
      by_cases hg : (s.courses.any fun x => x.id == c) = true
      · simp [get_participants, hg] at h
      · simp [get_participants, Bool.eq_false_iff.mpr hg]

/-- Witness for C7: three concrete rejections on the sample store — a
duplicate course id, an update of an absent course, and a deletion of an
absent course — each leave the state exactly as it was. -/
theorem ops_unchanged_on_error_witness :
    (add_course "t9" ⟨1, "New", "Zoe", none⟩ sampleState).2 = sampleState ∧
    (update_course_info 8 ⟨8, "New", "Zoe", none⟩ sampleState).2 = sampleState ∧
    (delete_course 8 sampleState).2 = sampleState := by
  refine ⟨?_, ?_, ?_⟩
  · exact (ops_unchanged_on_error sampleState).1 "t9" ⟨1, "New", "Zoe", none⟩
      courseIdExists (by rfl)
  · exact (ops_unchanged_on_error sampleState).2.1 8 ⟨8, "New", "Zoe", none⟩
      courseNotFoundUpdate (by rfl)
  · exact (ops_unchanged_on_error sampleState).2.2.1 8 courseNotFoundDelete (by rfl)

/-- C8: a successful `update_course_info` keeps every `created_at` in both
collections unchanged while overwriting the matched course's `id`, `name`,
`instructor`; a successful `update_participant_info` likewise keeps all
`created_at` fields while overwriting `id`, `name`, `course_id`; the
create operations only append a freshly stamped record, and `delete_course`
only removes whole records — so no operation ever modifies a `created_at`
after it is set at creation. -/
theorem created_at_frame (s : RegistryState) :
    (∀ A repl l1 c l2, s.courses = l1 ++ c :: l2 → (∀ y ∈ l1, y.id ≠ A) →
      c.id = A →
      courseStamps (update_course_info A repl s).2 = courseStamps s ∧
      participantStamps (update_course_info A repl s).2 = participantStamps s ∧
      (update_course_info A repl s).2.courses =
        l1 ++ { c with id := repl.id, name := repl.name,
                       instructor := repl.instructor } :: l2) ∧
    (∀ P repl l1 p l2, s.participants = l1 ++ p :: l2 → (∀ y ∈ l1, y.id ≠ P) →
      p.id = P →
      participantStamps (update_participant_info P repl s).2 =
        participantStamps s ∧
      (update_participant_info P repl s).2.courses = s.courses ∧
      (update_participant_info P repl s).2.participants =
        l1 ++ { p with id := repl.id, name := repl.name,
                       course_id := repl.course_id } :: l2) ∧
    (∀ now c r s2, add_course now c s = (.ok r, s2) →
      courseStamps s2 = courseStamps s ++ [some now] ∧
      s2.participants = s.participants) ∧
    (∀ now q r s2, add_participant now q s = (.ok r, s2) →
      participantStamps s2 = participantStamps s ++ [some now] ∧
      s2.courses = s.courses) ∧
    (∀ cid, List.Sublist (delete_course cid s).2.courses s.courses ∧
      List.Sublist (delete_course cid s).2.participants s.participants) := by
  refine ⟨?_, ?_, ?_, ?_, ?_⟩
  · intro A repl l1 c l2 hsplit hpre hc
    rw [update_course_info_split s A repl l1 c l2 hsplit hpre hc]
    refine ⟨?_, ?_, ?_⟩
    · simp [courseStamps, hsplit, overwrite_course]
    · simp [participantStamps, map_created_at_update_individual]
    · simp [overwrite_course]
  · intro P repl l1 p l2 hsplit hpre hp
    rw [update_participant_info_split s P repl l1 p l2 hsplit hpre hp]
    exact ⟨by simp [participantStamps, hsplit, overwrite_participant], rfl,
      by simp [overwrite_participant]⟩
  · intro now c r s2 h
    by_cases h1 : (s.courses.any fun x => x.id == c.id) = true
    · simp [add_course, h1] at h
    · by_cases h2 : (s.courses.any fun x => x.name == c.name) = true
      · simp [add_course, Bool.eq_false_iff.mpr h1, h2] at h
      · simp [add_course, Bool.eq_false_iff.mpr h1, Bool.eq_false_iff.mpr h2] at h
        obtain ⟨hr, hs2⟩ := h
        subst hs2
        exact ⟨by simp [courseStamps], rfl⟩
  · intro now q r s2 h
    by_cases h1 : (s.courses.any fun x => x.id == q.course_id) = true
    · by_cases h2 : (s.participants.any fun x => x.id == q.id) = true
      · simp [add_participant, h1, h2] at h
      · simp [add_participant, h1, Bool.eq_false_iff.mpr h2] at h
        obtain ⟨hr, hs2⟩ := h
        subst hs2
        exact ⟨by simp [participantStamps], rfl⟩
    · simp [add_participant, Bool.eq_false_iff.mpr h1] at h
  · intro cid
    cases hfind : s.courses.find? (fun x => x.id == cid) with
    | none =>
      constructor <;> simp [delete_course, hfind]
    | some c =>
      constructor
      · simp [delete_course, hfind]
        exact List.erase_sublist c s.courses
      · simp [delete_course, hfind, delete_participants_by_course_eq_filter]

/-- Witness for C8: updating course 1 and participant 10 on the sample
store leaves every stored timestamp unchanged. -/
theorem created_at_frame_witness :
    courseStamps (update_course_info 1 ⟨5, "Algo2", "Grace", none⟩ sampleState).2 =
      courseStamps sampleState ∧
    participantStamps
        (update_participant_info 10 ⟨99, "Eva", 2, none⟩ sampleState).2 =
      participantStamps sampleState := by
  refine ⟨?_, ?_⟩
  · exact ((created_at_frame sampleState).1 1 ⟨5, "Algo2", "Grace", none⟩
      [] cAlgo [cData] rfl (by simp) rfl).1
  · exact ((created_at_frame sampleState).2.1 10 ⟨99, "Eva", 2, none⟩
      [] pEve [pMax] rfl (by simp) rfl).1

/-- C9: a successful `update_course_info` returns the replacement data
verbatim — including the replacement's own `created_at`, which can be
`none` and so differ from the `created_at` the stored course retains (the
stored course keeps `c.created_at`, visible in the second conjunct) —
whereas a successful `update_participant_info` returns the stored, mutated
participant record, which carries the original `created_at`. -/
theorem update_return_values (s : RegistryState) :
    (∀ A repl l1 c l2, s.courses = l1 ++ c :: l2 → (∀ y ∈ l1, y.id ≠ A) →
      c.id = A →
      (update_course_info A repl s).1 = .ok repl ∧
      (update_course_info A repl s).2.courses =
        l1 ++ { c with id := repl.id, name := repl.name,
                       instructor := repl.instructor } :: l2) ∧
    (∀ P repl l1 p l2, s.participants = l1 ++ p :: l2 → (∀ y ∈ l1, y.id ≠ P) →
      p.id = P →
      (update_participant_info P repl s).1 =
        .ok { p with id := repl.id, name := repl.name,
                     course_id := repl.course_id }) := by
  refine ⟨?_, ?_⟩
  · intro A repl l1 c l2 hsplit hpre hc
    rw [update_course_info_split s A repl l1 c l2 hsplit hpre hc]
    exact ⟨rfl, by simp [overwrite_course]⟩
  · intro P repl l1 p l2 hsplit hpre hp
    rw [update_participant_info_split s P repl l1 p l2 hsplit hpre hp]
    rfl

/-- Witness for C9: on the sample store, updating course 1 returns the
replacement with `created_at = none` (the stored course keeps `"t1"`),
while updating participant 10 returns the stored record with its original
`created_at = "t3"` despite the replacement carrying `none`. -/
theorem update_return_values_witness :
    (update_course_info 1 ⟨5, "Algo2", "Grace", none⟩ sampleState).1 =
      .ok ⟨5, "Algo2", "Grace", none⟩ ∧
    (update_course_info 1 ⟨5, "Algo2", "Grace", none⟩ sampleState).2.courses =
      [⟨5, "Algo2", "Grace", some "t1"⟩, cData] ∧
    (update_participant_info 10 ⟨99, "Eva", 2, none⟩ sampleState).1 =
      .ok ⟨99, "Eva", 2, some "t3"⟩ := by
  refine ⟨?_, ?_, ?_⟩
  · exact ((update_return_values sampleState).1 1 ⟨5, "Algo2", "Grace", none⟩
      [] cAlgo [cData] rfl (by simp) rfl).1
  · have h := ((update_return_values sampleState).1 1 ⟨5, "Algo2", "Grace", none⟩
      [] cAlgo [cData] rfl (by simp) rfl).2
    rw [h]
    rfl
  · exact (update_return_values sampleState).2 10 ⟨99, "Eva", 2, none⟩
      [] pEve [pMax] rfl (by simp) rfl

/-- C10: `update_participant_info` performs no uniqueness check on the
replacement's id: in a store holding a participant with id `P` (the first
being `a`) and another participant `b` with a different id `Q`, updating
`P` with a replacement whose id is `Q` succeeds — returning the mutated
record — and the resulting collection holds at least two participants with
id `Q`, so participant-id uniqueness is not preserved. -/
theorem update_participant_no_unique_check (s : RegistryState) (P Q : Int)
    (repl : Participant) (l1 : List Participant) (a : Participant)
    (l2 : List Participant) (hsplit : s.participants = l1 ++ a :: l2)
    (hpre : ∀ y ∈ l1, y.id ≠ P) (ha : a.id = P) (b : Participant)
    (hb : b ∈ s.participants) (hbQ : b.id = Q) (hPQ : P ≠ Q)
    (hrepl : repl.id = Q) :
    update_participant_info P repl s =
      (.ok { a with id := repl.id, name := repl.name,
                    course_id := repl.course_id },
        { s with participants :=
            l1 ++ { a with id := repl.id, name := repl.name,
                           course_id := repl.course_id } :: l2 }) ∧
    2 ≤ ((update_participant_info P repl s).2.participants.countP
          (fun p => p.id == Q)) := by
  have h := update_participant_info_split s P repl l1 a l2 hsplit hpre ha
  refine ⟨h, ?_⟩
  rw [h]
  have hb2 : b ∈ l1 ∨ b ∈ l2 := by
    rcases List.mem_append.mp (hsplit ▸ hb) with h1 | h2
    · exact Or.inl h1
    · rcases List.mem_cons.mp h2 with hEq | h3
      · exact absurd (by rw [hEq, ha]) (hbQ ▸ hPQ).symm
      · exact Or.inr h3
  have hov : ((overwrite_participant a repl).id == Q) = true := by
    simp [overwrite_participant, hrepl]
  have hone : 0 < l1.countP (fun p => p.id == Q) +
      l2.countP (fun p => p.id == Q) := by
    rcases hb2 with h1 | h2
    · have hpos : 0 < l1.countP (fun p => p.id == Q) :=
        List.countP_pos_iff.mpr ⟨b, h1, by simp [hbQ]⟩
      omega
    · have hpos : 0 < l2.countP (fun p => p.id == Q) :=
        List.countP_pos_iff.mpr ⟨b, h2, by simp [hbQ]⟩
      omega
  simp [List.countP_append, List.countP_cons, hov]
  omega

/-- Witness for C10: updating participant 10 on the sample store to id 11
succeeds even though participant 11 exists, leaving two participants with
id 11. -/
theorem update_participant_no_unique_check_witness :
    update_participant_info 10 ⟨11, "Eva", 2, none⟩ sampleState =
      (.ok ⟨11, "Eva", 2, some "t3"⟩,
        ⟨[cAlgo, cData], [⟨11, "Eva", 2, some "t3"⟩, pMax]⟩) ∧
    2 ≤ ((update_participant_info 10 ⟨11, "Eva", 2, none⟩ sampleState).2.participants.countP
          (fun p => p.id == 11)) := by
  have h := update_participant_no_unique_check sampleState 10 11
    ⟨11, "Eva", 2, none⟩ [] pEve [pMax] rfl (by simp) rfl pMax
    (by simp [sampleState]) rfl (by decide) rfl
  exact ⟨by rw [h.1]; rfl, h.2⟩

end CourseMgmt
